import Mathlib

/-!
Verification of the detection session controller of the pokemon_card_detection
repository (src/unnamed/part_000, class PokemonCardDetector) against its
natural-language specification.  The JavaScript source is shallowly embedded:
the detection cache (a JS Map keyed by generated id) becomes a list of entities
with Map.set and Map.delete semantics, timer-driven code becomes explicit state
machines stepped by events, and fallible paths return explicit outcome values.
JS string helpers (trim, toLowerCase) are embedded as structural functions on
the character list so that concrete instances evaluate inside the kernel.
-/

namespace PokemonCardDetection

/-- JS truthiness of a possibly absent string field: undefined, null and the
empty string are falsy, every other string is truthy. -/
def strTruthy : Option String → Bool
  | none => false
  | some s => s != ""

/-- Embedding of the JS String.prototype.trim call: drop whitespace from both
ends of the character sequence. -/
def jsTrim (s : String) : String :=
  ⟨((s.data.dropWhile Char.isWhitespace).reverse.dropWhile Char.isWhitespace).reverse⟩

/-- Embedding of the JS String.prototype.toLowerCase call, character by
character. -/
def jsToLower (s : String) : String :=
  ⟨s.data.map Char.toLower⟩

/-- One candidate match returned by the recognition backend for a detection:
an entry of the matches array in the /v1/process response JSON, carrying
name, card_id, set_id and distance. -/
structure CardMatch where
  name : Option String
  card_id : Option String
  set_id : Option String
  distance : Int
  deriving DecidableEq, Repr

/-- One raw detection of a /v1/process response: polygon in source-frame pixel
coordinates, crop size, and the ranked match list (best first).  A missing
matches field and an empty matches array behave identically at every use site
(both fail the falsy guard in the source), so both are embedded as the empty
list. -/
structure RawDetection where
  polygon : List (Int × Int)
  crop_size : Option String
  «matches» : List CardMatch
  deriving DecidableEq, Repr

/-- A card object delivered by a WebSocket detection message (handleDetection
reads name, confidence, polygon, crop_size, set and id from it). -/
structure WsCard where
  name : String
  confidence : Option Int
  polygon : Option (List (Int × Int))
  crop_size : Option String
  set : Option String
  id : Option String
  deriving DecidableEq, Repr

/-- An entity stored in the detection cache (the values of the detectedCards
Map in the source).  Timestamps are milliseconds since the epoch. -/
structure Entity where
  id : String
  name : String
  confidence : Int
  polygon : List (Int × Int)
  cropSize : Option String
  setId : String
  cardId : String
  timestamp : Nat
  kept : Bool
  deriving DecidableEq, Repr

/-- Display-name resolution performed inline by handleBackendResponse
(part_000 lines 427-434): start from the literal Unknown Card, then take
bestMatch.name if truthy with truthy trim, else card_id likewise, else set_id
likewise; the chosen field is stored trimmed. -/
def resolveName (m : CardMatch) : String :=
  if strTruthy m.name && strTruthy (m.name.map jsTrim) then
    jsTrim (m.name.getD "")
  else if strTruthy m.card_id && strTruthy (m.card_id.map jsTrim) then
    jsTrim (m.card_id.getD "")
  else if strTruthy m.set_id && strTruthy (m.set_id.map jsTrim) then
    jsTrim (m.set_id.getD "")
  else "Unknown Card"

/-- The priority chain exactly as the spec words it (section 3): the first of
explicit match name, card identifier, set identifier that is present and
non-blank after trimming, otherwise the literal Unknown Card.  Written from
the spec only, to be compared with resolveName, which is written from the
source. -/
def specResolveName (m : CardMatch) : String :=
  match (([m.name, m.card_id, m.set_id].filterMap id).map jsTrim).find?
      (fun s => s != "") with
  | some s => s
  | none => "Unknown Card"

theorem jsTrim_empty : jsTrim "" = "" := rfl

theorem truthy_and_trim (s : String) :
    ((s != "") && (jsTrim s != "")) = (jsTrim s != "") := by
  by_cases h : s = ""
  · subst h; decide
  · simp [bne, h]

theorem bne_empty_of_ne {s : String} (h : ¬s = "") : (s != "") = true := by
  simp [bne, h]

theorem resolveName_eq_specResolveName (m : CardMatch) :
    resolveName m = specResolveName m := by
  obtain ⟨n, c, s, d⟩ := m
  cases n <;> cases c <;> cases s <;>
    simp only [resolveName, specResolveName, strTruthy, Option.map_some',
      Option.map_none', Option.getD_some, Option.getD_none, List.filterMap,
      List.find?, truthy_and_trim, Bool.false_and, Bool.and_self,
      if_false, Bool.false_eq_true] <;>
  · first
    | rfl
    | (rename_i a b c
       by_cases h : jsTrim a = "" <;> by_cases h2 : jsTrim b = "" <;>
         by_cases h3 : jsTrim c = "" <;> simp [h, h2, h3, bne_empty_of_ne])
    | (rename_i a b
       by_cases h : jsTrim a = "" <;> by_cases h2 : jsTrim b = "" <;>
         simp [h, h2, bne_empty_of_ne])
    | (rename_i a
       by_cases h : jsTrim a = "" <;> simp [h, bne_empty_of_ne])

/-! ## The detection cache -/

/-- JS Map.set semantics on the entity list: replace the entry with the same
key in place, else append at the end (JS Maps preserve insertion order). -/
def mapSet : List Entity → Entity → List Entity
  | [], e => [e]
  | c :: cs, e => if c.id == e.id then e :: cs else c :: mapSet cs e

/-- isRecentlyDetected (part_000 lines 403-414): true when some stored card has
the same case-insensitive name and was created less than cooldownMinutes ago. -/
def isRecentlyDetected (cards : List Entity) (now : Nat) (cardName : String)
    (cooldownMinutes : Nat) : Bool :=
  let cooldownMs := cooldownMinutes * 60 * 1000
  cards.any fun card =>
    if jsToLower card.name == jsToLower cardName then
      decide (((now : Int) - (card.timestamp : Int)) < (cooldownMs : Int))
    else false

/-- The entity built and stored by handleBackendResponse for one detection
(part_000 lines 451-461). -/
def backendEntity (now index : Nat) (d : RawDetection) (bestMatch : CardMatch) :
    Entity where
  id := "card_" ++ toString now ++ "_" ++ toString index
  name := resolveName bestMatch
  confidence := bestMatch.distance
  polygon := d.polygon
  cropSize := d.crop_size
  setId := if strTruthy bestMatch.set_id then bestMatch.set_id.getD "" else "Unknown Set"
  cardId := if strTruthy bestMatch.card_id then bestMatch.card_id.getD "" else "Unknown ID"
  timestamp := now
  kept := false

/-- The per-detection body of the forEach in handleBackendResponse (part_000
lines 422-468): skip when the matches list is missing or empty, otherwise
resolve the display name from the best match and insert unless an entity with
the same case-insensitive name is stored (existingCard) or recently detected
(isRecentlyDetected). -/
def handleBackendDetection (now index : Nat) (cards : List Entity)
    (d : RawDetection) : List Entity :=
  match d.«matches» with
  | [] => cards
  | bestMatch :: _ =>
    let cardName := resolveName bestMatch
    let existingCard := cards.any fun card => jsToLower card.name == jsToLower cardName
    let recentlyDetected := isRecentlyDetected cards now cardName 2
    if !existingCard && !recentlyDetected then
      mapSet cards (backendEntity now index d bestMatch)
    else cards

/-- handleBackendResponse (part_000 lines 416-482) restricted to its cache
effect: when the detections array is non-empty, run the per-detection insertion
over it with its forEach index; otherwise leave the cache unchanged (that
branch only clears the overlay). -/
def handleBackendResponse (cards : List Entity) (now : Nat)
    (detections : List RawDetection) : List Entity :=
  if detections.length > 0 then
    (detections.enum).foldl (fun acc p => handleBackendDetection now p.1 acc p.2) cards
  else cards

/-- The per-card body of the forEach in handleDetection (part_000 lines
625-656).  The random id suffix produced by Math.random is modelled by the
position of the card in the message, which is irrelevant to every claim. -/
def handleWsCard (now k : Nat) (cards : List Entity) (c : WsCard) : List Entity :=
  let existingCard := cards.any fun e => jsToLower e.name == jsToLower c.name
  let recentlyDetected := isRecentlyDetected cards now c.name 2
  if !existingCard && !recentlyDetected then
    mapSet cards
      { id := "card_" ++ toString now ++ "_" ++ toString k
        name := c.name
        confidence := c.confidence.getD 0
        polygon := c.polygon.getD []
        cropSize := if strTruthy c.crop_size then c.crop_size else none
        setId := if strTruthy c.set then c.set.getD "" else "Unknown Set"
        cardId := if strTruthy c.id then c.id.getD "" else "Unknown ID"
        timestamp := now
        kept := false }
  else cards

/-- handleDetection (part_000 lines 617-661) restricted to its cache effect:
a missing or empty cards array is only logged, otherwise each card is inserted
under the same existing-name and cooldown guards as the HTTP path. -/
def handleDetection (cards : List Entity) (now : Nat) (wsCards : List WsCard) :
    List Entity :=
  if wsCards.length = 0 then cards
  else (wsCards.enum).foldl (fun acc p => handleWsCard now p.1 acc p.2) cards

/-- removeAllCards (part_000 lines 138-148): on an empty store log that there
is nothing to remove and return; otherwise record the size, clear the Map and
log the removal count.  The second component is the logged message. -/
def removeAllCards (cards : List Entity) : List Entity × String :=
  if cards.length = 0 then (cards, "No cards to remove")
  else ([], "Removed all " ++ toString cards.length ++ " detected cards")

/-- removeCard (part_000 lines 530-537): delete the entity with the given id
when present, else do nothing. -/
def removeCard (cards : List Entity) (cardId : String) : List Entity :=
  if cards.any fun c => c.id == cardId then
    cards.filter fun c => !(c.id == cardId)
  else cards

/-- toggleKeepCard (part_000 lines 521-528): flip the kept flag of the entity
with the given id when present. -/
def toggleKeepCard (cards : List Entity) (cardId : String) : List Entity :=
  cards.map fun c => if c.id == cardId then { c with kept := !c.kept } else c

/-- The cache mutations reachable in the source: the two insertion paths and
the explicit removals and keep-toggles. -/
inductive CacheOp where
  | backendResponse (now : Nat) (detections : List RawDetection)
  | wsDetection (now : Nat) (cards : List WsCard)
  | remove (cardId : String)
  | removeAll
  | toggleKeep (cardId : String)
  deriving DecidableEq, Repr

def cacheStep (cards : List Entity) : CacheOp → List Entity
  | .backendResponse now ds => handleBackendResponse cards now ds
  | .wsDetection now cs => handleDetection cards now cs
  | .remove i => removeCard cards i
  | .removeAll => (removeAllCards cards).1
  | .toggleKeep i => toggleKeepCard cards i

/-- The cache state after a sequence of operations, starting from the empty
Map created in the constructor. -/
def runCache (ops : List CacheOp) : List Entity :=
  ops.foldl cacheStep []

/-- No two stored entities share a case-insensitive name. -/
def namesUnique (cards : List Entity) : Prop :=
  List.Pairwise (fun a b => jsToLower a.name ≠ jsToLower b.name) cards

/-- An entity is live when its creation time is within the cooldown window
(2 minutes = 120000 ms) of the current time, as isRecentlyDetected computes. -/
def entityLive (now : Nat) (e : Entity) : Prop :=
  ((now : Int) - (e.timestamp : Int)) < 120000

instance (now : Nat) (e : Entity) : Decidable (entityLive now e) := by
  unfold entityLive; infer_instance

/-! ## Dedup invariant machinery -/

theorem mem_mapSet {cards : List Entity} {e x : Entity} (h : x ∈ mapSet cards e) :
    x ∈ cards ∨ x = e := by
  induction cards with
  | nil => simpa [mapSet] using h
  | cons c cs ih =>
    by_cases hc : (c.id == e.id) = true
    · simp only [mapSet, hc, if_true, List.mem_cons] at h
      rcases h with h | h
      · right; exact h
      · left; exact List.mem_cons_of_mem _ h
    · simp only [mapSet, hc, if_false, Bool.false_eq_true, List.mem_cons] at h
      rcases h with h | h
      · left; exact h ▸ List.mem_cons_self _ _
      · rcases ih h with h1 | h1
        · left; exact List.mem_cons_of_mem _ h1
        · right; exact h1

theorem namesUnique_mapSet {cards : List Entity} {e : Entity}
    (h : namesUnique cards)
    (hne : ∀ c ∈ cards, jsToLower c.name ≠ jsToLower e.name) :
    namesUnique (mapSet cards e) := by
  induction cards with
  | nil => simp [mapSet, namesUnique]
  | cons c cs ih =>
    have hp := List.pairwise_cons.mp h
    by_cases hc : (c.id == e.id) = true
    · simp only [mapSet, hc, if_true, namesUnique]
      refine List.pairwise_cons.mpr ⟨?_, hp.2⟩
      intro b hb
      exact fun hbe => hne b (List.mem_cons_of_mem _ hb) hbe.symm
    · simp only [mapSet, hc, if_false, Bool.false_eq_true, namesUnique]
      refine List.pairwise_cons.mpr ⟨?_, ih hp.2 fun x hx => hne x (List.mem_cons_of_mem _ hx)⟩
      intro b hb
      rcases mem_mapSet hb with h1 | h1
      · exact hp.1 b h1
      · exact h1 ▸ hne c (List.mem_cons_self _ _)

theorem any_name_eq_false {cards : List Entity} {n : String}
    (h : (cards.any fun c => jsToLower c.name == jsToLower n) = false) :
    ∀ c ∈ cards, jsToLower c.name ≠ jsToLower n := by
  intro c hc heq
  have ht : (cards.any fun c => jsToLower c.name == jsToLower n) = true := by
    rw [List.any_eq_true]
    exact ⟨c, hc, by simp [heq]⟩
  simp [ht] at h

theorem any_name_of_recent {cards : List Entity} {now : Nat} {n : String}
    {mins : Nat} (h : isRecentlyDetected cards now n mins = true) :
    (cards.any fun c => jsToLower c.name == jsToLower n) = true := by
  simp only [isRecentlyDetected] at h
  rw [List.any_eq_true] at h ⊢
  obtain ⟨c, hc, hp⟩ := h
  refine ⟨c, hc, ?_⟩
  by_cases hm : (jsToLower c.name == jsToLower n) = true
  · exact hm
  · simp [hm] at hp

theorem namesUnique_handleBackendDetection (now index : Nat) (cards : List Entity)
    (d : RawDetection) (h : namesUnique cards) :
    namesUnique (handleBackendDetection now index cards d) := by
  rcases hd : d.«matches» with _ | ⟨bm, rest⟩ <;>
    simp only [handleBackendDetection, hd]
  · exact h
  · by_cases hex : (cards.any fun card =>
        jsToLower card.name == jsToLower (resolveName bm)) = true
    · simp [hex, h]
    · have hex0 : (cards.any fun card =>
          jsToLower card.name == jsToLower (resolveName bm)) = false :=
        eq_false_of_ne_true hex
      by_cases hrec : isRecentlyDetected cards now (resolveName bm) 2 = true
      · simp [hex0, hrec, h]
      · have hrec0 := eq_false_of_ne_true hrec
        simp only [hex0, hrec0, Bool.not_false, Bool.and_self, if_true]
        apply namesUnique_mapSet h
        intro c hc
        simpa [backendEntity] using any_name_eq_false hex0 c hc

theorem namesUnique_handleWsCard (now k : Nat) (cards : List Entity)
    (c : WsCard) (h : namesUnique cards) :
    namesUnique (handleWsCard now k cards c) := by
  simp only [handleWsCard]
  by_cases hex : (cards.any fun e => jsToLower e.name == jsToLower c.name) = true
  · simp [hex, h]
  · have hex0 : (cards.any fun e => jsToLower e.name == jsToLower c.name) = false :=
      eq_false_of_ne_true hex
    by_cases hrec : isRecentlyDetected cards now c.name 2 = true
    · simp [hex0, hrec, h]
    · have hrec0 := eq_false_of_ne_true hrec
      simp only [hex0, hrec0, Bool.not_false, Bool.and_self, if_true]
      apply namesUnique_mapSet h
      intro e he
      simpa using any_name_eq_false hex0 e he

theorem foldl_preserves {α β : Type _} {P : α → Prop} (f : α → β → α)
    (hf : ∀ a b, P a → P (f a b)) :
    ∀ (l : List β) (a : α), P a → P (l.foldl f a) := by
  intro l
  induction l with
  | nil => exact fun a ha => ha
  | cons x xs ih => exact fun a ha => ih _ (hf a x ha)

theorem namesUnique_cacheStep (cards : List Entity) (op : CacheOp)
    (h : namesUnique cards) : namesUnique (cacheStep cards op) := by
  cases op with
  | backendResponse now ds =>
    simp only [cacheStep, handleBackendResponse]
    split
    · exact foldl_preserves _
        (fun a b hb => namesUnique_handleBackendDetection now b.1 a b.2 hb) _ _ h
    · exact h
  | wsDetection now cs =>
    simp only [cacheStep, handleDetection]
    split
    · exact h
    · exact foldl_preserves _
        (fun a b hb => namesUnique_handleWsCard now b.1 a b.2 hb) _ _ h
  | remove i =>
    simp only [cacheStep, removeCard]
    split
    · exact List.Pairwise.sublist (List.filter_sublist _) h
    · exact h
  | removeAll =>
    simp only [cacheStep, removeAllCards]
    split
    · exact h
    · exact List.Pairwise.nil
  | toggleKeep i =>
    simp only [cacheStep, toggleKeepCard, namesUnique]
    rw [List.pairwise_map]
    refine List.Pairwise.imp ?_ h
    intro a b hab
    by_cases ha : (a.id == i) = true <;> by_cases hb : (b.id == i) = true <;>
      simp [ha, hb] <;> exact hab

theorem namesUnique_runCache (ops : List CacheOp) : namesUnique (runCache ops) := by
  rw [runCache]
  exact foldl_preserves _ (fun a b hb => namesUnique_cacheStep a b hb) ops []
    List.Pairwise.nil

theorem eq_of_namesUnique {l : List Entity} (h : namesUnique l) {e1 e2 : Entity}
    (h1 : e1 ∈ l) (h2 : e2 ∈ l)
    (hn : jsToLower e1.name = jsToLower e2.name) : e1 = e2 := by
  induction l with
  | nil => cases h1
  | cons c cs ih =>
    have hp := List.pairwise_cons.mp h
    rcases List.mem_cons.mp h1 with rfl | h1'
    · rcases List.mem_cons.mp h2 with rfl | h2'
      · rfl
      · exact absurd hn (hp.1 e2 h2')
    · rcases List.mem_cons.mp h2 with rfl | h2'
      · exact absurd hn.symm (hp.1 e1 h1')
      · exact ih hp.2 h1' h2'

/-! ## Capture scheduler (startPeriodicProcessing, processFrameWithBackend)

The single logical thread is modelled by an event step function: a tick of the
interval timer, the firing of the 25 ms capture delay, the arrival of the
canvas.toBlob callback that calls processFrameWithBackend, completion of the
outstanding request (the finally block), and the stream being started or
stopped.  Ticks are arbitrary events, so every tick rate is covered. -/

structure SchedState where
  stream : Bool
  isProcessing : Bool
  pendingDelays : Nat
  pendingBlobs : Nat
  outstanding : Nat
  deriving DecidableEq, Repr

inductive SchedEvent where
  | tick
  | delayFire
  | blobReady
  | complete
  | streamOn
  | streamOff
  deriving DecidableEq, Repr

/-- One step of the capture pipeline.  A tick (part_000 lines 216-225) checks
the stream and in-flight flag and otherwise schedules the 25 ms delayed
capture; the delayed callback re-checks both before capturing a frame; the
toBlob callback enters processFrameWithBackend, which returns early when the
in-flight flag is set and otherwise sets it and issues the request (lines
328-335); the finally block clears the flag when the request settles (lines
378-381). -/
def schedStep (s : SchedState) : SchedEvent → SchedState
  | .tick =>
    if s.stream && !s.isProcessing then
      { s with pendingDelays := s.pendingDelays + 1 }
    else s
  | .delayFire =>
    match s.pendingDelays with
    | 0 => s
    | n + 1 =>
      if s.stream && !s.isProcessing then
        { s with pendingDelays := n, pendingBlobs := s.pendingBlobs + 1 }
      else { s with pendingDelays := n }
  | .blobReady =>
    match s.pendingBlobs with
    | 0 => s
    | n + 1 =>
      if s.isProcessing then { s with pendingBlobs := n }
      else { s with pendingBlobs := n, isProcessing := true,
                    outstanding := s.outstanding + 1 }
  | .complete =>
    match s.outstanding with
    | 0 => s
    | n + 1 => { s with outstanding := n, isProcessing := false }
  | .streamOn => { s with stream := true }
  | .streamOff => { s with stream := false }

/-- The constructor state: no stream, flag clear, nothing pending. -/
def schedInit : SchedState :=
  { stream := false, isProcessing := false, pendingDelays := 0,
    pendingBlobs := 0, outstanding := 0 }

def runSched (evs : List SchedEvent) : SchedState :=
  evs.foldl schedStep schedInit

/-- The in-flight flag counts the outstanding requests exactly. -/
def schedInv (s : SchedState) : Prop :=
  s.outstanding = if s.isProcessing then 1 else 0

theorem bool_eq_false_of_ne_true {b : Bool} (h : ¬b = true) : b = false := by
  cases hb : b
  · rfl
  · exact absurd hb h

theorem schedInv_step {s : SchedState} (h : schedInv s) (e : SchedEvent) :
    schedInv (schedStep s e) := by
  cases e
  case tick =>
    simp only [schedStep]
    by_cases hc : (s.stream && !s.isProcessing) = true
    · simp only [hc, if_true]
      simpa [schedInv] using h
    · simp only [bool_eq_false_of_ne_true hc, Bool.false_eq_true, if_false]
      exact h
  case delayFire =>
    simp only [schedStep]
    rcases hpd : s.pendingDelays with _ | n
    · exact h
    · by_cases hc : (s.stream && !s.isProcessing) = true
      · simp only [hc, if_true]
        simpa [schedInv] using h
      · simp only [bool_eq_false_of_ne_true hc, Bool.false_eq_true, if_false]
        simpa [schedInv] using h
  case blobReady =>
    simp only [schedStep]
    rcases hpb : s.pendingBlobs with _ | n
    · exact h
    · by_cases hip : s.isProcessing = true
      · simp only [hip, if_true]
        simpa [schedInv, hip] using h
      · have hip0 := bool_eq_false_of_ne_true hip
        simp only [hip0, Bool.false_eq_true, if_false]
        have h0 : s.outstanding = 0 := by simpa [schedInv, hip0] using h
        simp [schedInv, h0]
  case complete =>
    simp only [schedStep]
    rcases ho : s.outstanding with _ | n
    · exact h
    · have hip : s.isProcessing = true := by
        by_contra hipn
        rw [schedInv, ho, bool_eq_false_of_ne_true hipn] at h
        simp at h
      rw [schedInv, ho, hip] at h
      simp at h
      simp [schedInv, h]
  case streamOn => simpa [schedInv] using h
  case streamOff => simpa [schedInv] using h

theorem schedInv_run (evs : List SchedEvent) : schedInv (runSched evs) := by
  rw [runSched]
  exact foldl_preserves (P := schedInv) schedStep (fun a b hb => schedInv_step hb b)
    evs schedInit (by simp [schedInv, schedInit])

/-! ## Notification channel (connectWebSocket, part_000 lines 547-593)

The reconnect logic: the onclose handler of each socket marks the session
disconnected and unconditionally schedules one setTimeout of 3000 ms whose
callback reconnects when still disconnected.  The onerror handler only logs.
connectWebSocket is also called from the constructor, from the visibUpdate
handler when the page becomes visible while disconnected, and from the
reconnect timer callback.  Pending reconnect timers are modelled as the list
of their delays, since the timeout id is never stored by the source. -/

structure WsState where
  isConnected : Bool
  liveSockets : Nat
  reconnectDelays : List Nat
  deriving DecidableEq, Repr

/-- connectWebSocket restricted to its socket effect: construct a new
WebSocket whose handlers will later fire as events. -/
def connectWebSocket (s : WsState) : WsState :=
  { s with liveSockets := s.liveSockets + 1 }

inductive WsEvent where
  | socketOpen
  | socketClose
  | socketError
  | visibilityVisible
  | reconnectFire
  deriving DecidableEq, Repr

def wsStep (s : WsState) : WsEvent → WsState
  | .socketOpen =>
    match s.liveSockets with
    | 0 => s
    | _ + 1 => { s with isConnected := true }
  | .socketClose =>
    match s.liveSockets with
    | 0 => s
    | n + 1 =>
      { s with liveSockets := n, isConnected := false,
               reconnectDelays := s.reconnectDelays ++ [3000] }
  | .socketError => s
  | .visibilityVisible =>
    if !s.isConnected then connectWebSocket s else s
  | .reconnectFire =>
    match s.reconnectDelays with
    | [] => s
    | _ :: ds =>
      let s1 := { s with reconnectDelays := ds }
      if !s1.isConnected then connectWebSocket s1 else s1

/-- The constructor immediately calls connectWebSocket. -/
def wsInit : WsState :=
  connectWebSocket { isConnected := false, liveSockets := 0, reconnectDelays := [] }

def runWs (evs : List WsEvent) : WsState :=
  evs.foldl wsStep wsInit

/-! ## Session teardown (cleanup, part_000 lines 839-851) -/

structure SessionState where
  processingInterval : Bool
  healthCheckInterval : Bool
  heartbeatInterval : Bool
  reconnectDelays : List Nat
  stream : Bool
  wsLive : Bool
  deriving DecidableEq, Repr

def stopPeriodicProcessing (s : SessionState) : SessionState :=
  if s.processingInterval then { s with processingInterval := false } else s

def stopBackendHealthCheck (s : SessionState) : SessionState :=
  if s.healthCheckInterval then { s with healthCheckInterval := false } else s

def stopHeartbeatTimer (s : SessionState) : SessionState :=
  if s.heartbeatInterval then { s with heartbeatInterval := false } else s

def stopCameraSession (s : SessionState) : SessionState :=
  if s.stream then { s with stream := false, processingInterval := false } else s

/-- cleanup: stop the capture interval, the health-check interval and the
heartbeat interval, request closing of the socket, and stop the camera.  The
pending reconnect timeout was never stored in a field, so nothing here can
clear it (and the requested socket close will itself fire a close event later,
scheduling yet another reconnect). -/
def cleanup (s : SessionState) : SessionState :=
  let s1 := stopPeriodicProcessing s
  let s2 := stopBackendHealthCheck s1
  let s3 := stopHeartbeatTimer s2
  let s4 := if s3.wsLive then { s3 with wsLive := false } else s3
  if s4.stream then stopCameraSession s4 else s4

/-! ## Recognition cycle outcome handling (processFrameWithBackend,
part_000 lines 328-382) -/

/-- The ways one recognition request can settle: a success response, a non-ok
HTTP response whose JSON body may carry a detail field (none also covers an
unparsable body, via the catch that yields an empty object), or a thrown
network error. -/
inductive FetchOutcome where
  | success (detections : List RawDetection)
  | httpError (status : Nat) (detail : Option String)
  | networkFailure (message : String)
  deriving DecidableEq, Repr

/-- The message of the Error thrown on a non-ok response:
errorData.detail when truthy, else the template string HTTP followed by the
numeric status (part_000 line 360). -/
def errorMessage (status : Nat) (detail : Option String) : String :=
  if strTruthy detail then detail.getD "" else "HTTP " ++ toString status

/-- Observable result of one full pass through processFrameWithBackend. -/
structure CycleResult where
  cards : List Entity
  isProcessing : Bool
  loggedError : Option String
  immediateRetry : Bool
  deriving DecidableEq, Repr

/-- processFrameWithBackend: return early when a request is already in flight;
otherwise set the flag, issue the request, dispatch success to
handleBackendResponse, catch any error and log its message, and always clear
the flag in the finally block.  No path issues another capture or request. -/
def processFrameWithBackend (cards : List Entity) (now : Nat)
    (isProcessing : Bool) (outcome : FetchOutcome) : CycleResult :=
  if isProcessing then
    { cards := cards, isProcessing := isProcessing, loggedError := none,
      immediateRetry := false }
  else
    match outcome with
    | .success ds =>
      { cards := handleBackendResponse cards now ds, isProcessing := false,
        loggedError := none, immediateRetry := false }
    | .httpError st detail =>
      { cards := cards, isProcessing := false,
        loggedError := some ("Backend processing error: " ++ errorMessage st detail),
        immediateRetry := false }
    | .networkFailure msg =>
      { cards := cards, isProcessing := false,
        loggedError := some ("Backend processing error: " ++ msg),
        immediateRetry := false }

/-! ## Overlay renderer (drawDetectionOverlay, part_000 lines 697-779)

The canvas 2d context is modelled as the list of drawing commands the pass
emits, in order; text metrics come from an abstract measure function standing
for ctx.measureText. -/

inductive DrawCmd where
  | clear
  | fillPoly (style : String) (pts : List (Int × Int))
  | strokePoly (style : String) (width : Int) (pts : List (Int × Int))
  | labelBg (style : String) (x y w h : Int)
  | labelText (text : String) (x y : Int)
  | badgeRect (style : String) (x y w h : Int)
  | badgeText (text : String) (x y : Int)
  deriving DecidableEq, Repr

/-- The label text drawn over a detection (part_000 lines 744-752): default
Card followed by the 1-based index, replaced by the trimmed best-match name
when truthy, else the trimmed card_id when truthy.  Unlike the cache chain,
set_id is never consulted and the fallback is not Unknown Card. -/
def overlayCardName (index : Nat) (ms : List CardMatch) : String :=
  match ms with
  | [] => "Card " ++ toString (index + 1)
  | bestMatch :: _ =>
    if strTruthy bestMatch.name && strTruthy (bestMatch.name.map jsTrim) then
      jsTrim (bestMatch.name.getD "")
    else if strTruthy bestMatch.card_id && strTruthy (bestMatch.card_id.map jsTrim) then
      jsTrim (bestMatch.card_id.getD "")
    else "Card " ++ toString (index + 1)

/-- The commands emitted for one detection (the forEach body, part_000 lines
709-776): nothing for an empty polygon, else the filled polygon, its outline,
the label background sized from the measured text, the label text, and the
sequence badge, all anchored at the first vertex. -/
def renderDetection (measure : String → Int) (index : Nat) (d : RawDetection) :
    List DrawCmd :=
  match d.polygon with
  | [] => []
  | (x, y) :: _ =>
    let cardName := overlayCardName index d.«matches»
    let textWidth := measure cardName
    [DrawCmd.fillPoly "rgba(16, 185, 129, 0.1)" d.polygon,
     DrawCmd.strokePoly "#10b981" 3 d.polygon,
     DrawCmd.labelBg "rgba(16, 185, 129, 0.9)" (x - 10) (y - 35) (textWidth + 20) 30,
     DrawCmd.labelText cardName (x + textWidth / 2) (y - 20),
     DrawCmd.badgeRect "#10b981" (x - 25) (y - 25) 30 30,
     DrawCmd.badgeText (toString (index + 1)) (x - 10) (y - 8)]

/-- One render pass: clear the whole surface first; when the detection list is
missing or empty, return after the clear; otherwise emit the commands of each
detection in order. -/
def drawDetectionOverlay (measure : String → Int) (detections : List RawDetection) :
    List DrawCmd :=
  DrawCmd.clear ::
    (if detections.length = 0 then []
     else ((detections.enum).map fun p => renderDetection measure p.1 p.2).flatten)

/-- The label chain of the amended overlay contract, written from the spec
words with the correction the counterexample forces: the first of match name
and card identifier that is present and non-blank after trimming, else Card
followed by the 1-based sequence number. -/
def specLabelName (index : Nat) (ms : List CardMatch) : String :=
  match ms with
  | [] => "Card " ++ toString (index + 1)
  | m :: _ =>
    match (([m.name, m.card_id].filterMap id).map jsTrim).find? (fun s => s != "") with
    | some s => s
    | none => "Card " ++ toString (index + 1)

/-- The render pass as the spec contract words it: one clear, then for each
detection with a non-empty polygon the filled translucent polygon, the stroked
outline, the label background sized to the measured text, the label text and
the sequence badge anchored at the first vertex.  Written from the spec, to be
compared with drawDetectionOverlay. -/
def specRenderDetection (measure : String → Int) (index : Nat) (d : RawDetection) :
    List DrawCmd :=
  match d.polygon with
  | [] => []
  | (x, y) :: _ =>
    let label := specLabelName index d.«matches»
    [DrawCmd.fillPoly "rgba(16, 185, 129, 0.1)" d.polygon] ++
    [DrawCmd.strokePoly "#10b981" 3 d.polygon] ++
    [DrawCmd.labelBg "rgba(16, 185, 129, 0.9)" (x - 10) (y - 35) (measure label + 20) 30,
     DrawCmd.labelText label (x + measure label / 2) (y - 20)] ++
    [DrawCmd.badgeRect "#10b981" (x - 25) (y - 25) 30 30,
     DrawCmd.badgeText (toString (index + 1)) (x - 10) (y - 8)]

def specOverlayPass (measure : String → Int) (detections : List RawDetection) :
    List DrawCmd :=
  [DrawCmd.clear] ++
    ((detections.enum).map fun p => specRenderDetection measure p.1 p.2).flatten

theorem overlayCardName_eq_specLabelName (index : Nat) (ms : List CardMatch) :
    overlayCardName index ms = specLabelName index ms := by
  rcases ms with _ | ⟨m, rest⟩
  · rfl
  · obtain ⟨n, c, s, d⟩ := m
    cases n <;> cases c <;>
      simp only [overlayCardName, specLabelName, strTruthy, Option.map_some',
        Option.map_none', Option.getD_some, Option.getD_none, List.filterMap,
        List.find?, truthy_and_trim, Bool.false_and, if_false,
        Bool.false_eq_true] <;>
    · first
      | rfl
      | (rename_i a b
         by_cases h : jsTrim a = "" <;> by_cases h2 : jsTrim b = "" <;>
           simp [h, h2, bne_empty_of_ne])
      | (rename_i a
         by_cases h : jsTrim a = "" <;> simp [h, bne_empty_of_ne])

theorem renderDetection_eq_spec (measure : String → Int) (index : Nat)
    (d : RawDetection) :
    renderDetection measure index d = specRenderDetection measure index d := by
  rcases hp : d.polygon with _ | ⟨⟨x, y⟩, rest⟩ <;>
    simp [renderDetection, specRenderDetection, hp, overlayCardName_eq_specLabelName]

/-! ## The claims -/

/-- C1: for every sequence of cache operations (insertions through
handleBackendResponse on HTTP responses and handleDetection on WebSocket
detection messages, as well as removals and keep toggles), at no instant do
two distinct stored entities share a case-insensitive name while both are
live within the 120 s cooldown window: any two live stored entities with
equal lowercased names are the same entity. -/
theorem dedup_invariant_live (ops : List CacheOp) (now : Nat) (e1 e2 : Entity)
    (h1 : e1 ∈ runCache ops) (h2 : e2 ∈ runCache ops)
    (hn : jsToLower e1.name = jsToLower e2.name)
    (hl1 : entityLive now e1) (hl2 : entityLive now e2) : e1 = e2 :=
  eq_of_namesUnique (namesUnique_runCache ops) h1 h2 hn

theorem dedup_invariant_live_witness :
    (⟨"card_0_0", "Pikachu", 3, [], none, "Unknown Set", "Unknown ID", 0, false⟩ : Entity)
      = ⟨"card_0_0", "Pikachu", 3, [], none, "Unknown Set", "Unknown ID", 0, false⟩ :=
  dedup_invariant_live
    [CacheOp.backendResponse 0 [⟨[], none, [⟨some "Pikachu", none, none, 3⟩]⟩]]
    0 _ _ (by decide) (by decide) rfl (by decide) (by decide)

/-- C2 counterexample: two Pikachu detections 1000 s apart, far beyond the
120 s cooldown window, with nothing removed in between.  The claim asserts
both insertions succeed and the cache then holds two entities with that name,
but the second insertion is rejected by the exact-name check (which ignores
timestamps), and the cache still holds exactly the first entity. -/
theorem cooldown_boundary_counterexample :
    (120000 : Int) < (1000000 : Int) - (0 : Int)
    ∧ handleBackendResponse
        (handleBackendResponse [] 0 [⟨[], none, [⟨some "Pikachu", none, none, 3⟩]⟩])
        1000000 [⟨[], none, [⟨some "Pikachu", none, none, 3⟩]⟩]
      = [⟨"card_0_0", "Pikachu", 3, [], none, "Unknown Set", "Unknown ID", 0, false⟩]
    ∧ ¬((handleBackendResponse
        (handleBackendResponse [] 0 [⟨[], none, [⟨some "Pikachu", none, none, 3⟩]⟩])
        1000000 [⟨[], none, [⟨some "Pikachu", none, none, 3⟩]⟩]).length = 2) := by
  decide

/-- C2 amended: a second detection resolving to the same case-insensitive name
is rejected (cache unchanged) whenever any entity with that name is stored,
regardless of how much time has passed, within or beyond the cooldown window;
the insertion succeeds exactly when no stored entity bears the name, for
example after the first entity was removed. -/
theorem cooldown_boundary_amended (cards : List Entity) (now index : Nat)
    (d : RawDetection) (bm : CardMatch) (rest : List CardMatch)
    (hm : d.«matches» = bm :: rest) :
    ((cards.any fun c => jsToLower c.name == jsToLower (resolveName bm)) = true →
      handleBackendDetection now index cards d = cards)
    ∧ ((cards.any fun c => jsToLower c.name == jsToLower (resolveName bm)) = false →
      handleBackendDetection now index cards d
        = mapSet cards (backendEntity now index d bm)) := by
  constructor
  · intro hex
    simp [handleBackendDetection, hm, hex]
  · intro hex
    have hrec : isRecentlyDetected cards now (resolveName bm) 2 = false := by
      by_cases hr : isRecentlyDetected cards now (resolveName bm) 2 = true
      · rw [any_name_of_recent hr] at hex
        cases hex
      · exact bool_eq_false_of_ne_true hr
    simp [handleBackendDetection, hm, hex, hrec]

theorem cooldown_boundary_amended_witness :
    handleBackendDetection 999999 0
        [⟨"card_0_0", "Pikachu", 3, [], none, "Unknown Set", "Unknown ID", 0, false⟩]
        ⟨[], none, [⟨some "Pikachu", none, none, 3⟩]⟩
      = [⟨"card_0_0", "Pikachu", 3, [], none, "Unknown Set", "Unknown ID", 0, false⟩] :=
  (cooldown_boundary_amended _ 999999 0 _ _ _ rfl).1 (by decide)

/-- C3: in every reachable scheduler state at most one recognition request is
outstanding, and a tick that fires while the in-flight flag is set or while no
video stream is active leaves the state unchanged, scheduling no capture and
issuing no request; event sequences are arbitrary, so every tick rate is
covered. -/
theorem single_in_flight (evs : List SchedEvent) :
    (runSched evs).outstanding ≤ 1
    ∧ ((runSched evs).isProcessing = true ∨ (runSched evs).stream = false →
        schedStep (runSched evs) SchedEvent.tick = runSched evs) := by
  constructor
  · have h := schedInv_run evs
    rw [schedInv] at h
    split at h <;> omega
  · intro hcase
    have hc : ((runSched evs).stream && !(runSched evs).isProcessing) = false := by
      rcases hcase with hip | hst
      · simp [hip]
      · simp [hst]
    simp [schedStep, hc]

theorem single_in_flight_witness :
    schedStep (runSched [SchedEvent.streamOn, SchedEvent.tick, SchedEvent.delayFire,
        SchedEvent.blobReady]) SchedEvent.tick
      = runSched [SchedEvent.streamOn, SchedEvent.tick, SchedEvent.delayFire,
        SchedEvent.blobReady]
    ∧ (runSched [SchedEvent.streamOn, SchedEvent.tick, SchedEvent.delayFire,
        SchedEvent.blobReady]).outstanding ≤ 1 :=
  ⟨(single_in_flight _).2 (Or.inl (by decide)), (single_in_flight _).1⟩

/-- C4: whenever the backend-response path stores a new entity for a detection
with a non-empty matches list, the stored display name follows the spec
priority chain: the match name, else the card identifier, else the set
identifier, each taken when present and non-blank after trimming, else the
literal Unknown Card. -/
theorem stored_name_resolution (cards : List Entity) (now index : Nat)
    (d : RawDetection) (bm : CardMatch) (rest : List CardMatch)
    (hm : d.«matches» = bm :: rest) (e : Entity)
    (he : e ∈ handleBackendDetection now index cards d) :
    e ∈ cards ∨ e.name = specResolveName bm := by
  simp only [handleBackendDetection, hm] at he
  split at he
  · rcases mem_mapSet he with h1 | h1
    · exact Or.inl h1
    · right
      rw [h1]
      simpa [backendEntity] using resolveName_eq_specResolveName bm
  · exact Or.inl he

theorem stored_name_resolution_witness :
    (⟨"card_0_0", "Pikachu", 3, [], none, "Unknown Set", "Unknown ID", 0, false⟩ : Entity)
        ∈ ([] : List Entity)
      ∨ Entity.name ⟨"card_0_0", "Pikachu", 3, [], none, "Unknown Set", "Unknown ID", 0, false⟩
        = specResolveName ⟨some "Pikachu", none, none, 3⟩ :=
  stored_name_resolution [] 0 0 ⟨[], none, [⟨some "Pikachu", none, none, 3⟩]⟩ _ _ rfl _
    (by decide)

/-- C5 counterexample: a close event, then a visibility-triggered reconnect
whose socket closes as well: after this reachable sequence two 3000 ms
reconnect timers are pending at once, so repeated close events while a
reconnect is pending do produce more than one pending reconnect timer. -/
theorem reconnect_idempotence_counterexample :
    (runWs [WsEvent.socketClose, WsEvent.visibilityVisible,
        WsEvent.socketClose]).reconnectDelays = [3000, 3000]
    ∧ ¬((runWs [WsEvent.socketClose, WsEvent.visibilityVisible,
        WsEvent.socketClose]).reconnectDelays.length ≤ 1) := by
  decide

/-- C5 amended: each close event of a live socket appends exactly one pending
3000 ms reconnect timer, and an error event schedules nothing (the onerror
handler only logs); because every close appends unconditionally, overlapping
sockets, e.g. via the visibility handler, can leave several reconnect timers
pending simultaneously. -/
theorem reconnect_scheduling_amended (s : WsState) :
    (0 < s.liveSockets →
      (wsStep s WsEvent.socketClose).reconnectDelays = s.reconnectDelays ++ [3000])
    ∧ wsStep s WsEvent.socketError = s := by
  constructor
  · intro hl
    rcases hls : s.liveSockets with _ | n
    · omega
    · simp [wsStep, hls]
  · rfl

theorem reconnect_scheduling_amended_witness :
    (wsStep ⟨false, 1, []⟩ WsEvent.socketClose).reconnectDelays
      = ([] : List Nat) ++ [3000]
    ∧ wsStep ⟨false, 1, []⟩ WsEvent.socketError = ⟨false, 1, []⟩ :=
  ⟨(reconnect_scheduling_amended ⟨false, 1, []⟩).1 (by decide),
   (reconnect_scheduling_amended ⟨false, 1, []⟩).2⟩

/-- C6 counterexample: a session with one pending reconnect timer: after
cleanup the reconnect timer is still pending, refuting the claim that no
scheduled timer of the session remains after teardown. -/
theorem teardown_counterexample :
    (cleanup ⟨true, true, true, [3000], true, true⟩).reconnectDelays = [3000]
    ∧ ¬((cleanup ⟨true, true, true, [3000], true, true⟩).reconnectDelays = []) := by
  decide

/-- C6 amended: cleanup cancels the capture interval, the health-check
interval and the heartbeat interval, but never a pending reconnect timer,
whose id the source does not store; such a timer can therefore still fire
after teardown. -/
theorem teardown_cancels_intervals_amended (s : SessionState) :
    (cleanup s).processingInterval = false
    ∧ (cleanup s).healthCheckInterval = false
    ∧ (cleanup s).heartbeatInterval = false
    ∧ (cleanup s).reconnectDelays = s.reconnectDelays := by
  obtain ⟨p, hc, hb, r, st, ws⟩ := s
  cases p <;> cases hc <;> cases hb <;> cases st <;> cases ws <;>
    exact ⟨rfl, rfl, rfl, rfl⟩

/-- C7 counterexample: a 404 response whose JSON body carries no detail field:
the thrown message is the template string HTTP 404, not the bare numeric
status code. -/
theorem error_message_counterexample :
    errorMessage 404 none = "HTTP 404"
    ∧ ¬(errorMessage 404 none = toString (404 : Nat)) := by
  decide

/-- C7 amended: for every completed recognition cycle entered with the flag
clear — success, non-success HTTP response or thrown network failure — the
in-flight flag is clear afterwards, the error path logs the caught message
and issues no immediate retry, the non-success message is the parsed detail
field when truthy and otherwise the literal HTTP followed by the numeric
status code, and a subsequent tick with the flag clear and an active stream
schedules a capture normally. -/
theorem recognition_failure_amended (cards : List Entity) (now : Nat)
    (outcome : FetchOutcome) :
    (processFrameWithBackend cards now false outcome).isProcessing = false
    ∧ (processFrameWithBackend cards now false outcome).immediateRetry = false
    ∧ (∀ st detail, outcome = FetchOutcome.httpError st detail →
        (processFrameWithBackend cards now false outcome).loggedError
          = some ("Backend processing error: " ++
              (if strTruthy detail then detail.getD "" else "HTTP " ++ toString st)))
    ∧ (∀ msg, outcome = FetchOutcome.networkFailure msg →
        (processFrameWithBackend cards now false outcome).loggedError
          = some ("Backend processing error: " ++ msg))
    ∧ (∀ p b o, schedStep ⟨true, false, p, b, o⟩ SchedEvent.tick
        = ⟨true, false, p + 1, b, o⟩) := by
  refine ⟨?_, ?_, ?_, ?_, ?_⟩
  · cases outcome <;> rfl
  · cases outcome <;> rfl
  · rintro st detail rfl
    simp [processFrameWithBackend, errorMessage]
  · rintro msg rfl
    rfl
  · intro p b o
    rfl

theorem recognition_failure_amended_witness :
    (processFrameWithBackend [] 0 false (FetchOutcome.httpError 404 none)).loggedError
      = some ("Backend processing error: " ++
          (if strTruthy none then (none : Option String).getD ""
           else "HTTP " ++ toString (404 : Nat))) :=
  (recognition_failure_amended [] 0 (FetchOutcome.httpError 404 none)).2.2.1 404 none rfl

/-- C8 counterexample: a match with a blank name, an empty card identifier and
set identifier XY7: the cache chain resolves the stored name XY7, but the
overlay label drawn is Card 1, because drawDetectionOverlay never consults
set_id; the rendered label is therefore not resolved by the same priority
chain as the cache. -/
theorem overlay_label_counterexample :
    ((drawDetectionOverlay (fun _ => 40)
        [⟨[(50, 50), (100, 50), (100, 120)], none,
          [⟨some " ", some "", some "XY7", 5⟩]⟩]).filterMap
      (fun c => match c with
        | DrawCmd.labelText t _ _ => some t
        | _ => none)) = ["Card 1"]
    ∧ resolveName ⟨some " ", some "", some "XY7", 5⟩ = "XY7"
    ∧ ¬("Card 1" = "XY7") := by
  decide

/-- C8 amended: every render pass equals the spec contract with the label
chain corrected to the one the source implements: clear the surface first;
for each detection with a non-empty polygon draw the filled translucent
polygon, the stroked outline, a label background sized to the measured text,
the label text resolved as match name then card identifier (set identifier is
never used) with fallback Card n, and a sequence badge anchored at the first
vertex; empty polygons draw nothing; an empty detection list only clears. -/
theorem overlay_render_contract_amended (measure : String → Int)
    (detections : List RawDetection) :
    drawDetectionOverlay measure detections = specOverlayPass measure detections := by
  rcases detections with _ | ⟨d, ds⟩
  · rfl
  · simp [drawDetectionOverlay, specOverlayPass, renderDetection_eq_spec]

/-- C9 counterexample: on an already-empty store removeAllCards logs the
informational message No cards to remove and reports no removal count at all,
rather than reporting zero removals. -/
theorem removeAll_empty_counterexample :
    removeAllCards [] = ([], "No cards to remove")
    ∧ ¬((removeAllCards []).2 = "Removed all 0 detected cards") := by
  decide

/-- C9 amended: removeAllCards always leaves the store empty; on a non-empty
store its logged message reports exactly the number of entities stored
immediately before the call; on an empty store it is a no-op that logs No
cards to remove and reports no count. -/
theorem removeAll_postcondition_amended (cards : List Entity) :
    (removeAllCards cards).1 = []
    ∧ (¬cards.length = 0 →
        (removeAllCards cards).2
          = "Removed all " ++ toString cards.length ++ " detected cards")
    ∧ (cards.length = 0 → removeAllCards cards = (cards, "No cards to remove")) := by
  refine ⟨?_, ?_, ?_⟩
  · by_cases h : cards.length = 0
    · rw [removeAllCards, if_pos h]
      exact List.length_eq_zero.mp h
    · rw [removeAllCards, if_neg h]
  · intro h
    rw [removeAllCards, if_neg h]
  · intro h
    rw [removeAllCards, if_pos h]

theorem removeAll_postcondition_amended_witness :
    (removeAllCards
        [⟨"card_0_0", "Pikachu", 3, [], none, "Unknown Set", "Unknown ID", 0, false⟩]).2
      = "Removed all "
        ++ toString (List.length
            [(⟨"card_0_0", "Pikachu", 3, [], none, "Unknown Set", "Unknown ID", 0,
              false⟩ : Entity)])
        ++ " detected cards" :=
  (removeAll_postcondition_amended _).2.1 (by decide)

/-- C10: a raw detection whose matches list is missing or empty is skipped by
the backend-response path: the cache is left unchanged, so in particular no
Unknown Card entity is created for it, while the overlay pass still draws its
polygon when the polygon is non-empty. -/
theorem empty_matches_skipped (cards : List Entity) (now index : Nat)
    (d : RawDetection) (measure : String → Int) (hm : d.«matches» = []) :
    handleBackendDetection now index cards d = cards
    ∧ handleBackendResponse cards now [d] = cards
    ∧ (¬d.polygon = [] →
        DrawCmd.fillPoly "rgba(16, 185, 129, 0.1)" d.polygon
          ∈ drawDetectionOverlay measure [d]) := by
  have h0 : ∀ (i : Nat) (acc : List Entity), handleBackendDetection now i acc d = acc := by
    intro i acc
    simp [handleBackendDetection, hm]
  refine ⟨h0 index cards, ?_, ?_⟩
  · simp [handleBackendResponse, List.enum, List.enumFrom, h0]
  · intro hp
    rcases hpoly : d.polygon with _ | ⟨⟨x, y⟩, rest⟩
    · exact absurd hpoly hp
    · simp [drawDetectionOverlay, renderDetection, hpoly]

theorem empty_matches_skipped_witness :
    handleBackendDetection 0 0
        [⟨"c1", "Pikachu", 3, [], none, "Unknown Set", "Unknown ID", 0, false⟩]
        ⟨[(1, 2)], none, []⟩
      = [⟨"c1", "Pikachu", 3, [], none, "Unknown Set", "Unknown ID", 0, false⟩]
    ∧ handleBackendResponse
        [⟨"c1", "Pikachu", 3, [], none, "Unknown Set", "Unknown ID", 0, false⟩]
        0 [⟨[(1, 2)], none, []⟩]
      = [⟨"c1", "Pikachu", 3, [], none, "Unknown Set", "Unknown ID", 0, false⟩]
    ∧ DrawCmd.fillPoly "rgba(16, 185, 129, 0.1)" [(1, 2)]
        ∈ drawDetectionOverlay (fun _ => 0) [⟨[(1, 2)], none, []⟩] := by
  have h := empty_matches_skipped
    [⟨"c1", "Pikachu", 3, [], none, "Unknown Set", "Unknown ID", 0, false⟩] 0 0
    ⟨[(1, 2)], none, []⟩ (fun _ => 0) rfl
  exact ⟨h.1, h.2.1, h.2.2 (by decide)⟩

end PokemonCardDetection
